import Mathlib

/-!
# om-xmm: the bridge `xmm-lib.cpp`

A shallow embedding of `xmm-om/sources/xmm-lib.cpp`, the flat-buffer bridge between
OpenMusic and the XMM library, and the properties of it that its specification states.

The bridge calls into `xmm::TrainingSet`, `xmm::Phrase` and `xmm::HierarchicalHMM`.
Those classes are not part of `xmm-lib.cpp`; the bridge functions are embedded over
the operations they call (`TrainingSetOps`, `SequenceModel`), and every call site of
the source is a call of the corresponding field.
-/

namespace XmmLib

/-! ## Characters and strings -/

/-- A C `char`, as the byte it holds. -/
abbrev CChar := Fin 256

/-- A `std::string`: its bytes, in order. -/
abbrev CString := List CChar

/-- The byte of a character literal such as `'Y'`. -/
def charLit (c : Char) : CChar := Fin.ofNat c.toNat

/-- Conversion of a `char` to `int`; plain `char` is signed on the targets the bridge is
built for, and for the ASCII range the value is the same either way. -/
def charToInt (c : CChar) : Int := if c.val < 128 then (c.val : Int) else (c.val : Int) - 256

/-- The function `std::isspace` in the "C" locale: space, `\t`, `\n`, `\v`, `\f`, `\r`. -/
def isspace (c : CChar) : Bool := c.val == 32 || (9 ≤ c.val && c.val ≤ 13)

/-- The expression `s[0]` on a `std::string`: the first byte, and the terminator `\0`
when the string is empty. -/
def first0 (s : CString) : CChar := s.headD 0

/-- The statement `ss >> target` for a `std::string` target: leading white space is
skipped, then bytes are taken up to the next white space or the end of the stream;
when no byte is taken the target keeps its value. -/
def extractString (ss : CString) (target : CString) : CString :=
  let word := (ss.dropWhile isspace).takeWhile (fun c => !isspace c)
  if word.isEmpty then target else word

/-- Lines 17-23. -/
def toString (c : CChar) : CString :=
  let ss : CString := [] ++ [c]
  let target : CString := []
  extractString ss target

/-! ## Calls into the library -/

/-- Outcome of a library call made on an object: the object afterwards, and the
exception the call raised, if any. An object mutated in place keeps what was done to it
before the exception. -/
structure Step (E S : Type) where
  state : S
  exn : Option E

/-- Sequencing of two statements: the second runs unless the first raised. -/
def Step.bind {E S : Type} (r : Step E S) (f : S → Step E S) : Step E S :=
  match r.exn with
  | none => f r.state
  | some _ => r

/-- The loop `for (int i = 0; i < n; i++) body(i)`, left as soon as a body raises. -/
def Step.forRange {E S : Type} (n : Nat) (body : Nat → S → Step E S) (s : S) : Step E S :=
  (List.range n).foldl (fun r i => r.bind (body i)) ⟨s, none⟩

/-- The operations of `xmm::TrainingSet` and of its `xmm::Phrase`s that the bridge calls,
on a training set of type `TS` holding observations over `F`; `E` is the type of
exceptions. A `phrase_` operation is the call made through `getPhrase(j)`. -/
structure TrainingSetOps (F TS E : Type) where
  /-- The object of `new xmm::TrainingSet(MemoryMode::OwnMemory, Multimodality::Unimodal)`. -/
  create : TS
  /-- The read `dimension.get()`. -/
  dimension_get : TS → Nat
  /-- The assignment `dimension = n`. -/
  dimension_assign : Nat → TS → Step E TS
  /-- The read `column_names.size()`. -/
  column_names_size : TS → Nat
  /-- The read `column_names.get()`. -/
  column_names_get : TS → List String
  /-- The call `column_names.resize(n)`. -/
  column_names_resize : Nat → TS → Step E TS
  /-- The call `column_names.set(vec)`. -/
  column_names_set : List String → TS → Step E TS
  /-- The call `empty()`. -/
  empty : TS → Step E TS
  /-- The call `addPhrase(j, label)`. -/
  addPhrase : Int → CString → TS → Step E TS
  /-- The call `getPhrase(j)->column_names.resize(n)`. -/
  phrase_column_names_resize : Int → Nat → TS → Step E TS
  /-- The assignment `getPhrase(j)->column_names = names`. -/
  phrase_column_names_assign : Int → List String → TS → Step E TS
  /-- The assignment `getPhrase(j)->dimension = n`. -/
  phrase_dimension_assign : Int → Nat → TS → Step E TS
  /-- The call `getPhrase(j)->record(observation)`. -/
  phrase_record : Int → List F → TS → Step E TS

/-- A call on the training set, within a state that also holds the local vector
`observation`. -/
def onDataset {F TS E : Type} (op : TS → Step E TS) (s : TS × List F) : Step E (TS × List F) :=
  ⟨((op s.1).state, s.2), (op s.1).exn⟩

/-! ## fillDataset -/

/-- Lines 61-63: `for (i = 0; i < dimension.get(); i++) observation[i] = descr[j][i][it]`.
The vector was given `dimension.get()` entries in line 49; a store past its end, which
takes a training set that changes its dimension in between, leaves the list as it is. -/
def fillDataset.observe {F TS E : Type} (T : TrainingSetOps F TS E) (descr : Nat → Nat → Nat → F)
    (j it : Nat) (s : TS × List F) : Step E (TS × List F) :=
  ⟨(s.1, (List.range (T.dimension_get s.1)).foldl (fun obs i => obs.set i (descr j i it)) s.2), none⟩

/-- Lines 55-65: the body of the loop over the samples, for sample `j`. -/
def fillDataset.sample {F TS E : Type} (T : TrainingSetOps F TS E) (descr : Nat → Nat → Nat → F)
    (sizes : Nat → Int) (labels : Nat → CChar) (j : Nat) (s : TS × List F) : Step E (TS × List F) :=
  ((((onDataset (T.addPhrase j (toString (labels j))) s).bind
    (fun s => onDataset (T.phrase_column_names_resize j (T.column_names_size s.1)) s)).bind
    (fun s => onDataset (T.phrase_column_names_assign j (T.column_names_get s.1)) s)).bind
    (fun s => onDataset (T.phrase_dimension_assign j (T.column_names_size s.1)) s)).bind
    (Step.forRange (sizes j).toNat (fun it s =>
      (fillDataset.observe T descr j it s).bind (fun s => onDataset (T.phrase_record j s.2) s)))

/-- What `fillDataset` leaves behind: the `int` it returns, the training set, and the
exception it caught and wrote to `std::cerr`, if any. -/
structure FillResult (TS E : Type) where
  ret : Int
  dataset : TS
  caught : Option E

/-- Lines 43-73. `descr[j][i][it]`, `sizes[j]` and `labels[j]` are the caller's buffers. -/
def fillDataset {F TS E : Type} [Zero F] (T : TrainingSetOps F TS E) (descr : Nat → Nat → Nat → F)
    (sample_num : Int) (sizes : Nat → Int) (labels : Nat → CChar) (dataset : TS) :
    FillResult TS E :=
  let observation : List F := List.replicate (T.dimension_get dataset) 0
  let r := (onDataset T.empty (dataset, observation)).bind
    (Step.forRange sample_num.toNat (fillDataset.sample T descr sizes labels))
  { ret := charToInt (charLit 'Y'), dataset := r.state.1, caught := r.exn }

/-! ## The training set of the XMM library -/

/-- Modelled from the spec: `xmm::Phrase`, which is missing from the sources. A Sequence
is an ordered sequence of feature vectors sharing one label, with its dimensionality and
its column names. -/
structure Phrase (F : Type) where
  label : CString
  dimension : Nat
  column_names : List String
  data : List (List F)

/-- Modelled from the spec: `xmm::TrainingSet`, which is missing from the sources. A
Corpus is an ordered collection of Sequences, each under its caller-assigned index (a
`std::map` from `int`, so ordered by index), plus the dimension and the column names. -/
structure TrainingSet (F : Type) where
  dimension : Nat
  column_names : List String
  phrases : List (Int × Phrase F)

/-- Modelled from the spec: `resize(n)` on the column names, of a library missing from the
sources, with the meaning of `std::vector::resize`: the names are cut to `n` entries or
filled up with empty names. -/
def resizeNames (n : Nat) (names : List String) : List String :=
  names.take n ++ List.replicate (n - names.length) ""

/-- Modelled from the spec: the assignment `phrases[j] = p` of the library, missing from
the sources: the phrase under index `j` is replaced, or `p` is put in at its place in the
order of the indices. -/
def putPhrase {F : Type} (j : Int) (p : Phrase F) : List (Int × Phrase F) → List (Int × Phrase F)
  | [] => [(j, p)]
  | (k, q) :: rest =>
    if j < k then (j, p) :: (k, q) :: rest
    else if j = k then (j, p) :: rest
    else (k, q) :: putPhrase j p rest

/-- Modelled from the spec: a call through `getPhrase(j)` of the library, missing from the
sources: `f` is applied to the phrase under index `j`; `none` when there is no such phrase. -/
def onPhrase {F : Type} (j : Int) (f : Phrase F → Phrase F) :
    List (Int × Phrase F) → Option (List (Int × Phrase F))
  | [] => none
  | (k, q) :: rest =>
    if j = k then some ((k, f q) :: rest)
    else (onPhrase j f rest).map (fun l => (k, q) :: l)

/-- The exceptions of the library that the model of the training set raises. -/
inductive XmmError where
  | outOfRange
  | badAlloc
  | fitError
  | formatError
  deriving DecidableEq

/-- A call through `getPhrase(j)` on a training set: `std::out_of_range` when the phrase
does not exist. -/
def TrainingSet.onPhrase {F : Type} (j : Int) (f : Phrase F → Phrase F) (ts : TrainingSet F) :
    Step XmmError (TrainingSet F) :=
  match XmmLib.onPhrase j f ts.phrases with
  | some l => ⟨{ ts with phrases := l }, none⟩
  | none => ⟨ts, some XmmError.outOfRange⟩

/-- Modelled from the spec: the operations of `xmm::TrainingSet` and `xmm::Phrase`, which
are missing from the sources. `empty` discards all prior Sequences; `addPhrase` creates a
new Sequence with identity `j` and the given label, of the corpus's dimensionality;
`record` appends one feature vector to the Sequence, preserving input order. A new
training set has the least dimension, 1, and no Sequence. -/
def xmmTrainingSet (F : Type) : TrainingSetOps F (TrainingSet F) XmmError where
  create := { dimension := 1, column_names := [""], phrases := [] }
  dimension_get ts := ts.dimension
  dimension_assign n ts := ⟨{ ts with dimension := n }, none⟩
  column_names_size ts := ts.column_names.length
  column_names_get ts := ts.column_names
  column_names_resize n ts := ⟨{ ts with column_names := resizeNames n ts.column_names }, none⟩
  column_names_set names ts := ⟨{ ts with column_names := names }, none⟩
  empty ts := ⟨{ ts with phrases := [] }, none⟩
  addPhrase j label ts :=
    let p : Phrase F :=
      { label := label, dimension := ts.dimension, column_names := ts.column_names, data := [] }
    ⟨{ ts with phrases := putPhrase j p ts.phrases }, none⟩
  phrase_column_names_resize j n ts :=
    ts.onPhrase j (fun p => { p with column_names := resizeNames n p.column_names })
  phrase_column_names_assign j names ts :=
    ts.onPhrase j (fun p => { p with column_names := names })
  phrase_dimension_assign j n ts := ts.onPhrase j (fun p => { p with dimension := n })
  phrase_record j obs ts := ts.onPhrase j (fun p => { p with data := p.data ++ [obs] })

/-! ## The model -/

/-- The operations of `xmm::HierarchicalHMM` that the bridge calls, on a model of type `H`;
`TS` is the training set, `J` a parsed `Json::Value`, `E` the type of exceptions.
`train` and `fromJson` are called inside a `try` block, so the model they leave behind on
an exception stays in use; `filter` is called outside of one, so its exception leaves the
bridge. -/
structure SequenceModel (F H TS J E : Type) where
  /-- The object of `new xmm::HierarchicalHMM(false)`. -/
  create : H
  /-- The call `train(mdataset)`. -/
  train : H → TS → Step E H
  /-- The call `reset()`. -/
  reset : H → H
  /-- The call `filter(observation)`. -/
  filter : H → List F → Except E H
  /-- The read of `results.likeliest`. -/
  likeliest : H → CString
  /-- The call `fromJson(json)`. -/
  fromJson : H → J → Step E H
  /-- The keys of `models`, in the order in which `models.begin()` .. `models.end()`
  visits them. -/
  models : H → List CString

/-- What `trainXMM` leaves behind: the `int` it returns, the model, and the exception it
caught and wrote to `std::cerr`, if any. -/
structure TrainResult (H E : Type) where
  ret : Int
  model : H
  caught : Option E

/-- Lines 77-87. -/
def trainXMM {F H TS J E : Type} (C : SequenceModel F H TS J E) (dataset : TS) (model : H) :
    TrainResult H E :=
  let r := C.train model dataset
  { ret := charToInt (charLit 'Y'), model := r.state, caught := r.exn }

/-- Lines 96-101, one turn of the loop: the vector `observation` is overwritten with
`descr[0][k], ..., descr[columnnum-1][k]` and passed to `filter`. -/
def runXMM.step {F H TS J E : Type} (C : SequenceModel F H TS J E) (descr : Nat → Nat → F)
    (columnnum : Nat) (s : H × List F) (k : Nat) : Except E (H × List F) :=
  let observation := (List.range columnnum).foldl (fun obs i => obs.set i (descr i k)) s.2
  (C.filter s.1 observation).map (fun m => (m, observation))

/-- Lines 91-104: the returned `int` and the model afterwards, or the exception that a
`filter` raised. `descr[i][k]` is the caller's buffer; `columnnum` ranges over the `int`s
from 0 on, the sizes a vector can be constructed with in line 94. -/
def runXMM {F H TS J E : Type} [Zero F] (C : SequenceModel F H TS J E) (descr : Nat → Nat → F)
    (sample_size : Int) (columnnum : Nat) (model : H) : Except E (Int × H) :=
  let observation : List F := List.replicate columnnum 0
  let mhhmm := C.reset model
  match (List.range sample_size.toNat).foldlM (runXMM.step C descr columnnum)
      (mhhmm, observation) with
  | Except.error e => Except.error e
  | Except.ok s => Except.ok (charToInt (first0 (C.likeliest s.1)), s.1)

/-! ## The handles -/

/-- The objects the bridge has allocated. Each of `initXMM` and `initDataset` keeps a
function-local `static` pointer: unset until the first call, and from then on the address
of the object that call allocated, here together with that object. `next` is the next
free address. -/
structure Process (H TS : Type) where
  next : Nat
  initXMM_mhhmm : Option (Nat × H)
  initDataset_mdataset : Option (Nat × TS)

/-- The process before any call. -/
def Process.start (H TS : Type) : Process H TS :=
  { next := 0, initXMM_mhhmm := none, initDataset_mdataset := none }

/-- Lines 26-29: the handle returned and the process afterwards. The initializer of the
`static` runs on the first call only. -/
def initXMM {F H TS J E : Type} (C : SequenceModel F H TS J E) (p : Process H TS) :
    Nat × Process H TS :=
  match p.initXMM_mhhmm with
  | some (a, _) => (a, p)
  | none => (p.next, { p with next := p.next + 1, initXMM_mhhmm := some (p.next, C.create) })

/-- Lines 32-39: the handle returned (or the exception that leaves the function) and the
process afterwards. The initializer of the `static` runs on the first call only; the three
statements that follow run on every call. `numcolumns` ranges over the `int`s from 0 on,
the sizes the vector of line 36 can be constructed with. -/
def initDataset {F TS E H : Type} (T : TrainingSetOps F TS E) (numcolumns : Nat)
    (p : Process H TS) : Except E Nat × Process H TS :=
  let (a, mdataset, next) : Nat × TS × Nat :=
    match p.initDataset_mdataset with
    | some (a, ts) => (a, ts, p.next)
    | none => (p.next, T.create, p.next + 1)
  let vec : List String := List.replicate numcolumns "col"
  let r := ((T.dimension_assign numcolumns mdataset).bind
    (T.column_names_resize numcolumns)).bind (T.column_names_set vec)
  (match r.exn with
    | none => Except.ok a
    | some e => Except.error e,
   { p with next := next, initDataset_mdataset := some (a, r.state) })

/-! ## importJson -/

/-- A block of `char`s from `malloc`: one cell per byte, `none` while the byte has not
been written. The length is the size that was asked for. -/
abbrev LabelBuffer := List (Option CChar)

/-- The statement `labls[i] = c`: `none` when `i` is not inside the block. -/
def LabelBuffer.store (labls : LabelBuffer) (i : Nat) (c : CChar) : Option LabelBuffer :=
  if i < labls.length then some (labls.set i (some c)) else none

/-- What `importJson` leaves behind: the model, the block that the `static` pointer
`labls` (the returned pointer) refers to, and the exception it caught, if any. -/
structure ImportResult (H E : Type) where
  model : H
  labls : LabelBuffer
  caught : Option E

/-- Lines 129-132, one turn of the loop: `labls[i] = it->first[0]; i++`. -/
def importJson.step (s : LabelBuffer × Nat) (label : CString) : Option (LabelBuffer × Nat) :=
  (s.1.store s.2 (first0 label)).map (fun b => (b, s.2 + 1))

/-- Lines 119-139, from the parsed document on. `labls` is the `static` pointer: `none`
before the first call, when its initializer allocates the block, and the block of the
first call ever after. The result is `none` when a store falls outside the block. -/
def importJson {F H TS J E : Type} (C : SequenceModel F H TS J E) (json : J) (model : H)
    (labls : Option LabelBuffer) : Option (ImportResult H E) :=
  let labls : LabelBuffer :=
    match labls with
    | some b => b
    | none => List.replicate ((C.models model).length + 1) none
  let r := C.fromJson model json
  match r.exn with
  | some e => some { model := r.state, labls := labls, caught := some e }
  | none =>
    match (C.models r.state).foldlM importJson.step (labls, 0) with
    | none => none
    | some (b, i) =>
      (b.store i (charLit '0')).map (fun b => { model := r.state, labls := b, caught := none })

/-- The first `m` columns of sample `j` of the buffer `descr`, each with `d` components:
column `t` is `descr[j][0][t], ..., descr[j][d-1][t]`. -/
def sampleColumns {F : Type} (descr : Nat → Nat → Nat → F) (j d m : Nat) : List (List F) :=
  (List.range m).map (fun t => (List.range d).map (fun i => descr j i t))

/-- The phrase that the calls of lines 55-65 make of sample `j`, in a training set of the
given dimension and column names. -/
def recorded {F : Type} (dimension : Nat) (column_names : List String)
    (descr : Nat → Nat → Nat → F) (sizes : Nat → Int) (labels : Nat → CChar) (j : Nat) : Phrase F :=
  { label := toString (labels j)
    dimension := column_names.length
    column_names := column_names
    data := sampleColumns descr j dimension (sizes j).toNat }

/-- Modelled from the spec: what `reset()` of the library, missing from the sources, does
to the decode state: it is reset to the initial state, erasing any prior partial-sequence
state. So a reset after a `filter` step, or after a reset, gives the state that the reset
before it gave. -/
def SequenceModel.ResetsDecodeState {F H TS J E : Type} (C : SequenceModel F H TS J E) : Prop :=
  (∀ m v m', C.filter m v = Except.ok m' → C.reset m' = C.reset m) ∧
  (∀ m, C.reset (C.reset m) = C.reset m)

/-- The columns `0 .. n-1` of the buffer `descr` of `runXMM`, each with `d` components:
column `k` is `descr[0][k], ..., descr[d-1][k]`. -/
def bufferColumns {F : Type} (descr : Nat → Nat → F) (d n : Nat) : List (List F) :=
  (List.range n).map (fun k => (List.range d).map (fun i => descr i k))

/-- The training set of the library on a machine with little memory: `addPhrase` raises
`std::bad_alloc` once the set holds `maxPhrases` phrases, and `record` raises it once the
phrase holds `maxLength` vectors. -/
def limitedTrainingSet (F : Type) (maxPhrases maxLength : Nat) :
    TrainingSetOps F (TrainingSet F) XmmError :=
  { xmmTrainingSet F with
    addPhrase := fun j label ts =>
      if maxPhrases ≤ ts.phrases.length then ⟨ts, some XmmError.badAlloc⟩
      else (xmmTrainingSet F).addPhrase j label ts
    phrase_record := fun j obs ts =>
      if ts.phrases.any (fun x => x.1 == j && decide (maxLength ≤ x.2.data.length))
      then ⟨ts, some XmmError.badAlloc⟩
      else (xmmTrainingSet F).phrase_record j obs ts }

/-- Lines 49-53, up to the turn for sample `j`: the run of `fillDataset` through `empty()`
and the turns of the loop for the samples before `j`. -/
def fillDataset.before {F TS E : Type} [Zero F] (T : TrainingSetOps F TS E)
    (descr : Nat → Nat → Nat → F) (sizes : Nat → Int) (labels : Nat → CChar) (dataset : TS)
    (j : Nat) : Step E (TS × List F) :=
  (onDataset T.empty (dataset, List.replicate (T.dimension_get dataset) 0)).bind
    (Step.forRange j (fillDataset.sample T descr sizes labels))

/-- Lines 55-58: the four calls that construct the phrase of sample `j`. -/
def fillDataset.construct {F TS E : Type} (T : TrainingSetOps F TS E) (labels : Nat → CChar)
    (j : Nat) (s : TS × List F) : Step E (TS × List F) :=
  (((onDataset (T.addPhrase j (toString (labels j))) s).bind
    (fun s => onDataset (T.phrase_column_names_resize j (T.column_names_size s.1)) s)).bind
    (fun s => onDataset (T.phrase_column_names_assign j (T.column_names_get s.1)) s)).bind
    (fun s => onDataset (T.phrase_dimension_assign j (T.column_names_size s.1)) s)

/-- Lines 59-65, one turn of the loop over the time-steps of sample `j`. -/
def fillDataset.turn {F TS E : Type} (T : TrainingSetOps F TS E) (descr : Nat → Nat → Nat → F)
    (j it : Nat) (s : TS × List F) : Step E (TS × List F) :=
  (fillDataset.observe T descr j it s).bind (fun s => onDataset (T.phrase_record j s.2) s)

/-- Lines 49-63, up to the call of `record` for time-step `it` of sample `j`: the run of
`fillDataset` through the samples before `j`, the construction of the phrase of `j`, the
turns for its time-steps before `it`, and the filling of `observation` for `it`. -/
def fillDataset.beforeRecord {F TS E : Type} [Zero F] (T : TrainingSetOps F TS E)
    (descr : Nat → Nat → Nat → F) (sizes : Nat → Int) (labels : Nat → CChar) (dataset : TS)
    (j it : Nat) : Step E (TS × List F) :=
  (((fillDataset.before T descr sizes labels dataset j).bind
    (fillDataset.construct T labels j)).bind
    (Step.forRange it (fillDataset.turn T descr j))).bind (fillDataset.observe T descr j it)

/-! ## The scenario of the specification -/

/-- The buffer of the scenario: sample 0 is `[1,2]` at each of its time-steps, sample 1 is
`[5,5]`. -/
def scenarioDescr (j i _t : Nat) : Int := if j = 0 then (if i = 0 then 1 else 2) else 5

/-- The lengths of the scenario: 3 time-steps for sample 0, 2 for sample 1. -/
def scenarioSizes (j : Nat) : Int := if j = 0 then 3 else 2

/-- The labels of the scenario: `'A'` for sample 0, `'B'` for sample 1. -/
def scenarioLabels (j : Nat) : CChar := if j = 0 then charLit 'A' else charLit 'B'

/-- A corpus of dimension 2, as `initDataset(2)` configures it. -/
def scenarioCorpus : TrainingSet Int := { dimension := 2, column_names := ["col", "col"], phrases := [] }

/-! ## A small model, for evaluating the bridge -/

/-- A classifier with a list of labels and a count of the observations seen since the
last reset; after `k` observations it ranks first the label at position `k - 1`, counted
round the list. -/
structure Cycler where
  labels : List CString
  seen : Nat
  likeliest : CString
  deriving DecidableEq

/-- The operations of `Cycler`: training takes the labels of the phrases and fails on an
empty training set; a document is a list of labels, or `none` when it is malformed. -/
def cycler (F : Type) :
    SequenceModel F Cycler (TrainingSet F) (Option (List CString)) XmmError where
  create := { labels := [], seen := 0, likeliest := [] }
  train m ts :=
    if ts.phrases.isEmpty then ⟨m, some XmmError.fitError⟩
    else ⟨{ m with labels := ts.phrases.map (fun p => p.2.label) }, none⟩
  reset m := { m with seen := 0, likeliest := [] }
  filter m _ :=
    Except.ok { m with seen := m.seen + 1,
                       likeliest := m.labels.getD (m.seen % m.labels.length) [] }
  likeliest m := m.likeliest
  fromJson m json :=
    match json with
    | some labels => ⟨{ m with labels := labels }, none⟩
    | none => ⟨m, some XmmError.formatError⟩
  models m := m.labels

/-! ## Loops and vectors -/

theorem Step.bind_ok {E S : Type} (s : S) (f : S → Step E S) :
    Step.bind ⟨s, none⟩ f = f s := rfl

theorem Step.forRange_zero {E S : Type} (body : Nat → S → Step E S) (s : S) :
    Step.forRange 0 body s = ⟨s, none⟩ := rfl

theorem Step.forRange_succ {E S : Type} (n : Nat) (body : Nat → S → Step E S) (s : S) :
    Step.forRange (n + 1) body s = (Step.forRange n body s).bind (body n) := by
  simp [Step.forRange, List.range_succ, List.foldl_append]

/-- Storing `f i` at the positions `0 .. k-1` of a vector, one after the other. -/
theorem foldl_set_range {F : Type} (f : Nat → F) (obs : List F) (k : Nat) (hk : k ≤ obs.length) :
    (List.range k).foldl (fun o i => o.set i (f i)) obs = (List.range k).map f ++ obs.drop k := by
  induction k with
  | zero => simp
  | succ k ih =>
    rw [List.range_succ, List.foldl_append, ih (by omega)]
    have hlt : k < obs.length := by omega
    simp only [List.foldl_cons, List.foldl_nil, List.map_append, List.map_cons, List.map_nil]
    rw [List.set_append]
    simp only [List.length_map, List.length_range, lt_self_iff_false, if_false, Nat.sub_self]
    rw [List.drop_eq_getElem_cons hlt, List.set_cons_zero]
    simp

/-- Overwriting a whole vector: lines 61-63 and 97-99 leave exactly the column. -/
theorem foldl_set_all {F : Type} (f : Nat → F) (obs : List F) (n : Nat) (h : obs.length = n) :
    (List.range n).foldl (fun o i => o.set i (f i)) obs = (List.range n).map f := by
  subst h
  rw [foldl_set_range f obs obs.length (le_refl _)]
  simp

/-! ## fillDataset on the training set of the library -/

theorem putPhrase_append {F : Type} (j : Int) (p : Phrase F) (l : List (Int × Phrase F))
    (h : ∀ x ∈ l, x.1 < j) : putPhrase j p l = l ++ [(j, p)] := by
  induction l with
  | nil => rfl
  | cons x rest ih =>
    obtain ⟨k, q⟩ := x
    have hk : k < j := h (k, q) (List.mem_cons_self _ _)
    have hrest : ∀ x ∈ rest, x.1 < j := fun x hx => h x (List.mem_cons_of_mem _ hx)
    simp only [putPhrase, List.cons_append]
    rw [if_neg (by omega), if_neg (by omega), ih hrest]

theorem onPhrase_append {F : Type} (j : Int) (f : Phrase F → Phrase F) (p : Phrase F)
    (l : List (Int × Phrase F)) (h : ∀ x ∈ l, x.1 < j) :
    onPhrase j f (l ++ [(j, p)]) = some (l ++ [(j, f p)]) := by
  induction l with
  | nil => simp [onPhrase]
  | cons x rest ih =>
    obtain ⟨k, q⟩ := x
    have hk : k < j := h (k, q) (List.mem_cons_self _ _)
    have hrest : ∀ x ∈ rest, x.1 < j := fun x hx => h x (List.mem_cons_of_mem _ hx)
    have hne : ¬ j = k := by omega
    simp [onPhrase, hne, ih hrest]

theorem TrainingSet.onPhrase_last {F : Type} (j : Int) (f : Phrase F → Phrase F) (p : Phrase F)
    (d : Nat) (names : List String) (l : List (Int × Phrase F)) (h : ∀ x ∈ l, x.1 < j) :
    TrainingSet.onPhrase j f ⟨d, names, l ++ [(j, p)]⟩ = ⟨⟨d, names, l ++ [(j, f p)]⟩, none⟩ := by
  simp [TrainingSet.onPhrase, XmmLib.onPhrase_append j f p l h]

/-- Lines 59-65 on the library's training set: `m` turns of the loop append the first `m`
columns of sample `j` to its phrase, and raise nothing. -/
theorem record_loop {F : Type} (descr : Nat → Nat → Nat → F) (j : Nat) (d : Nat)
    (names : List String) (l : List (Int × Phrase F)) (h : ∀ x ∈ l, x.1 < (j : Int))
    (p : Phrase F) (obs : List F) (hobs : obs.length = d) (m : Nat) :
    ∃ obs' : List F, obs'.length = d ∧
      Step.forRange m (fun it s =>
        (fillDataset.observe (xmmTrainingSet F) descr j it s).bind
          (fun s => onDataset ((xmmTrainingSet F).phrase_record j s.2) s))
        ((⟨d, names, l ++ [((j : Int), p)]⟩ : TrainingSet F), obs)
      = ⟨(⟨d, names, l ++ [((j : Int), { p with data := p.data ++ sampleColumns descr j d m })]⟩,
          obs'), none⟩ := by
  induction m with
  | zero => exact ⟨obs, hobs, by simp [Step.forRange_zero, sampleColumns]⟩
  | succ m ih =>
    obtain ⟨obs', hobs', heq⟩ := ih
    refine ⟨(List.range d).map (fun i => descr j i m), by simp, ?_⟩
    rw [Step.forRange_succ, heq, Step.bind_ok]
    simp only [fillDataset.observe, xmmTrainingSet, Step.bind_ok, onDataset]
    rw [foldl_set_all _ obs' d hobs', TrainingSet.onPhrase_last _ _ _ _ _ _ h]
    simp [sampleColumns, List.range_succ]

/-- Lines 55-65 on the library's training set: the body of the loop over the samples puts
the phrase of sample `j` behind the phrases of the samples before it, and raises nothing. -/
theorem sample_xmm {F : Type} (descr : Nat → Nat → Nat → F) (sizes : Nat → Int)
    (labels : Nat → CChar) (j : Nat) (d : Nat) (names : List String)
    (l : List (Int × Phrase F)) (h : ∀ x ∈ l, x.1 < (j : Int))
    (obs : List F) (hobs : obs.length = d) :
    ∃ obs' : List F, obs'.length = d ∧
      fillDataset.sample (xmmTrainingSet F) descr sizes labels j ((⟨d, names, l⟩ : TrainingSet F), obs)
      = ⟨(⟨d, names, l ++ [((j : Int), recorded d names descr sizes labels j)]⟩, obs'), none⟩ := by
  obtain ⟨obs', hobs', heq⟩ := record_loop descr j d names l h
    { label := toString (labels j), dimension := names.length, column_names := names, data := [] }
    obs hobs (sizes j).toNat
  refine ⟨obs', hobs', ?_⟩
  have h1 : onDataset ((xmmTrainingSet F).addPhrase j (toString (labels j)))
      ((⟨d, names, l⟩ : TrainingSet F), obs)
      = ⟨(⟨d, names, l ++ [((j : Int), ⟨toString (labels j), d, names, []⟩)]⟩, obs), none⟩ := by
    simp [onDataset, xmmTrainingSet, putPhrase_append _ _ l h]
  unfold fillDataset.sample
  rw [h1, Step.bind_ok]
  have h2 : ∀ (p : Phrase F) (f : Phrase F → Phrase F),
      onDataset (TrainingSet.onPhrase (j : Int) f)
        ((⟨d, names, l ++ [((j : Int), p)]⟩ : TrainingSet F), obs)
      = ⟨(⟨d, names, l ++ [((j : Int), f p)]⟩, obs), none⟩ := by
    intro p f
    simp [onDataset, TrainingSet.onPhrase_last _ _ _ _ _ _ h]
  simp only [xmmTrainingSet, h2, Step.bind_ok] at heq ⊢
  rw [heq]
  simp [recorded]

/-- Lines 53-66 on the library's training set, started on no phrases: `n` turns of the
loop leave the phrases of the samples `0 .. n-1`, in this order, and raise nothing. -/
theorem samples_xmm {F : Type} (descr : Nat → Nat → Nat → F) (sizes : Nat → Int)
    (labels : Nat → CChar) (d : Nat) (names : List String) (obs : List F) (hobs : obs.length = d)
    (n : Nat) :
    ∃ obs' : List F, obs'.length = d ∧
      Step.forRange n (fillDataset.sample (xmmTrainingSet F) descr sizes labels)
        ((⟨d, names, []⟩ : TrainingSet F), obs)
      = ⟨(⟨d, names, (List.range n).map
            (fun (j : Nat) => ((j : Int), recorded d names descr sizes labels j))⟩, obs'), none⟩ := by
  induction n with
  | zero => exact ⟨obs, hobs, by simp [Step.forRange_zero]⟩
  | succ n ih =>
    obtain ⟨obs1, hobs1, heq⟩ := ih
    have hkeys : ∀ x ∈ (List.range n).map
        (fun (j : Nat) => ((j : Int), recorded d names descr sizes labels j)), x.1 < (n : Int) := by
      intro x hx
      simp only [List.mem_map, List.mem_range] at hx
      obtain ⟨j, hj, rfl⟩ := hx
      simpa using hj
    obtain ⟨obs2, hobs2, heq2⟩ := sample_xmm descr sizes labels n d names _ hkeys obs1 hobs1
    refine ⟨obs2, hobs2, ?_⟩
    rw [Step.forRange_succ, heq, Step.bind_ok, heq2]
    simp [List.range_succ]

/-- What `fillDataset` does on the library's training set, whatever it held before: it
returns `'Y'`, catches nothing, and leaves the phrases of the samples `0 .. sample_num-1`
in a training set of unchanged dimension and column names. -/
theorem fillDataset_xmm {F : Type} [Zero F] (descr : Nat → Nat → Nat → F) (sample_num : Int)
    (sizes : Nat → Int) (labels : Nat → CChar) (ts : TrainingSet F) :
    fillDataset (xmmTrainingSet F) descr sample_num sizes labels ts =
      ⟨89, ⟨ts.dimension, ts.column_names, (List.range sample_num.toNat).map
        (fun (j : Nat) => ((j : Int), recorded ts.dimension ts.column_names descr sizes labels j))⟩,
        none⟩ := by
  obtain ⟨d, names, l⟩ := ts
  obtain ⟨obs', _, heq⟩ := samples_xmm descr sizes labels d names
    (List.replicate d (0 : F)) (by simp) sample_num.toNat
  have h1 : onDataset (xmmTrainingSet F).empty ((⟨d, names, l⟩ : TrainingSet F), List.replicate d (0 : F))
      = ⟨(⟨d, names, []⟩, List.replicate d (0 : F)), none⟩ := by
    simp [onDataset, xmmTrainingSet]
  have hd : (xmmTrainingSet F).dimension_get ⟨d, names, l⟩ = d := rfl
  unfold fillDataset
  simp only [hd, h1, Step.bind_ok, heq]
  rfl

/-! ## The claims on fillDataset -/

/-- C1: on a corpus of dimension `D` (its `D` column names included), `fillDataset`
leaves exactly `sampleCount` sequences, the one at position `j` under index `j`, of
dimension `D`, with exactly `sizes[j]` feature vectors, the `t`-th of which is
`[descr[j][0][t], ..., descr[j][D-1][t]]`. The corpus need not be empty beforehand. -/
theorem fillDataset_builds_corpus {F : Type} [Zero F] (D : Nat) (ts : TrainingSet F)
    (hD : 1 ≤ D) (hdim : ts.dimension = D) (hnames : ts.column_names.length = D)
    (descr : Nat → Nat → Nat → F) (sampleCount : Int) (sizes : Nat → Int) (labels : Nat → CChar)
    (hcount : 0 ≤ sampleCount) (hsizes : ∀ j, 0 ≤ sizes j) :
    (fillDataset (xmmTrainingSet F) descr sampleCount sizes labels ts).dataset.dimension = D ∧
    (((fillDataset (xmmTrainingSet F) descr sampleCount sizes labels ts).dataset.phrases.length
        : Nat) : Int) = sampleCount ∧
    ∀ j : Nat, (j : Int) < sampleCount →
      ∃ p : Phrase F,
        (fillDataset (xmmTrainingSet F) descr sampleCount sizes labels ts).dataset.phrases[j]?
          = some ((j : Int), p) ∧
        p.dimension = D ∧ ((p.data.length : Nat) : Int) = sizes j ∧
        ∀ t : Nat, (t : Int) < sizes j →
          p.data[t]? = some ((List.range D).map (fun i => descr j i t)) := by
  have _ := hD
  rw [fillDataset_xmm]
  refine ⟨hdim, ?_, ?_⟩
  · simp only [List.length_map, List.length_range]
    omega
  · intro j hj
    have hj' : j < sampleCount.toNat := by omega
    refine ⟨recorded ts.dimension ts.column_names descr sizes labels j, ?_, ?_, ?_, ?_⟩
    · simp [List.getElem?_map, List.getElem?_range hj']
    · simp [recorded, hnames]
    · have := hsizes j
      simp only [recorded, sampleColumns, List.length_map, List.length_range]
      omega
    · intro t ht
      have ht' : t < (sizes j).toNat := by omega
      simp [recorded, sampleColumns, List.getElem?_map, List.getElem?_range ht', hdim]

/-- C1, at the scenario of the specification: two samples over `D = 2`, of 3 and 2
time-steps. -/
theorem fillDataset_builds_corpus_witness :
    (1 ≤ 2 ∧ scenarioCorpus.dimension = 2 ∧ scenarioCorpus.column_names.length = 2 ∧
      (0 : Int) ≤ 2 ∧ ∀ j, 0 ≤ scenarioSizes j) ∧
    (((fillDataset (xmmTrainingSet Int) scenarioDescr 2 scenarioSizes scenarioLabels
        scenarioCorpus).dataset.phrases.length : Nat) : Int) = 2 :=
  have hs : ∀ j, 0 ≤ scenarioSizes j := fun j => by unfold scenarioSizes; split <;> decide
  ⟨⟨by decide, rfl, rfl, by decide, hs⟩,
   (fillDataset_builds_corpus 2 scenarioCorpus (by decide) rfl rfl scenarioDescr 2 scenarioSizes
      scenarioLabels (by decide) hs).2.1⟩

/-- The scenario of the specification, evaluated: two sequences under the indices 0 and 1,
labelled `'A'` and `'B'`, of dimension 2, with 3 vectors `[1,2]` and 2 vectors `[5,5]`. -/
theorem fillDataset_scenario :
    (fillDataset (xmmTrainingSet Int) scenarioDescr 2 scenarioSizes scenarioLabels
        scenarioCorpus).dataset.phrases.map (fun x => (x.1, x.2.label, x.2.dimension, x.2.data))
      = [(0, [charLit 'A'], 2, [[1, 2], [1, 2], [1, 2]]), (1, [charLit 'B'], 2, [[5, 5], [5, 5]])] := by
  rw [fillDataset_xmm]
  decide

/-- C2: a rebuild is destructive. After `fillDataset` with the inputs A and then with the
inputs B, everything `fillDataset` leaves behind is what it leaves behind with B on the
same corpus emptied: B's sequences and none of A's. -/
theorem fillDataset_rebuild {F : Type} [Zero F] (ts : TrainingSet F)
    (descrA : Nat → Nat → Nat → F) (countA : Int) (sizesA : Nat → Int) (labelsA : Nat → CChar)
    (descrB : Nat → Nat → Nat → F) (countB : Int) (sizesB : Nat → Int) (labelsB : Nat → CChar) :
    fillDataset (xmmTrainingSet F) descrB countB sizesB labelsB
        (fillDataset (xmmTrainingSet F) descrA countA sizesA labelsA ts).dataset
      = fillDataset (xmmTrainingSet F) descrB countB sizesB labelsB
          ⟨ts.dimension, ts.column_names, []⟩ ∧
    (fillDataset (xmmTrainingSet F) descrB countB sizesB labelsB
        (fillDataset (xmmTrainingSet F) descrA countA sizesA labelsA ts).dataset).dataset.phrases
      = (List.range countB.toNat).map
          (fun (j : Nat) => ((j : Int), recorded ts.dimension ts.column_names descrB sizesB labelsB j)) := by
  simp only [fillDataset_xmm, and_self]

/-! ## The claim on labels -/

/-- The function `toString` gives the one-character string of a byte that is not white
space. -/
theorem toString_of_not_isspace (c : CChar) (h : isspace c = false) : toString c = [c] := by
  simp [toString, extractString, h]

/-- The function `toString` gives the empty string for a white-space byte. -/
theorem toString_of_isspace (c : CChar) (h : isspace c = true) : toString c = [] := by
  simp [toString, extractString, h]

/-- C9, at the failing input: for the label bytes space, tab and newline `toString` gives
the empty string, not the one-character string, and the sequence that `fillDataset`
creates for a sample labelled with a space has the empty label. -/
theorem toString_white_space_label :
    toString (charLit ' ') = [] ∧ toString (charLit '\t') = [] ∧ toString (charLit '\n') = [] ∧
    (fillDataset (xmmTrainingSet Int) scenarioDescr 1 scenarioSizes (fun _ => charLit ' ')
        scenarioCorpus).dataset.phrases.map (fun x => (x.1, x.2.label)) = [(0, [])] := by
  refine ⟨by decide, by decide, by decide, ?_⟩
  rw [fillDataset_xmm]
  decide

/-! ## The claims on runXMM -/

/-- Lines 96-101: the loop of `runXMM` passes the columns of the buffer to `filter`, one
after the other, and stops at the first exception. -/
theorem runXMM_loop {F H TS J E : Type} (C : SequenceModel F H TS J E) (descr : Nat → Nat → F)
    (d : Nat) (n : Nat) (m0 : H) (obs : List F) (hobs : obs.length = d) :
    ∃ obs' : List F, obs'.length = d ∧
      (List.range n).foldlM (runXMM.step C descr d) (m0, obs)
        = ((bufferColumns descr d n).foldlM C.filter m0).map (fun m => (m, obs')) := by
  induction n with
  | zero => exact ⟨obs, hobs, rfl⟩
  | succ n ih =>
    obtain ⟨obs1, hobs1, heq⟩ := ih
    have hcols : bufferColumns descr d (n + 1)
        = bufferColumns descr d n ++ [(List.range d).map (fun i => descr i n)] := by
      simp [bufferColumns, List.range_succ]
    rw [List.range_succ, List.foldlM_append, heq, hcols, List.foldlM_append]
    cases hR : (bufferColumns descr d n).foldlM C.filter m0 with
    | error e => exact ⟨obs1, hobs1, rfl⟩
    | ok m1 =>
      refine ⟨(List.range d).map (fun i => descr i n), by simp, ?_⟩
      simp only [Except.map, List.foldlM_cons, List.foldlM_nil, bind, Except.bind, pure,
        Except.pure, runXMM.step, foldl_set_all _ obs1 d hobs1]
      cases C.filter m1 ((List.range d).map (fun i => descr i n)) <;> rfl

/-- Lines 91-104 as one fold: `runXMM` is the fold of `filter` over the columns of the
buffer, from the reset model, followed by the read of `results.likeliest[0]`. -/
theorem runXMM_fold {F H TS J E : Type} [Zero F] (C : SequenceModel F H TS J E)
    (descr : Nat → Nat → F) (n : Int) (d : Nat) (model : H) :
    runXMM C descr n d model
      = ((bufferColumns descr d n.toNat).foldlM C.filter (C.reset model)).map
          (fun s => (charToInt (first0 (C.likeliest s)), s)) := by
  obtain ⟨obs', _, heq⟩ := runXMM_loop C descr d n.toNat (C.reset model)
    (List.replicate d (0 : F)) (by simp)
  unfold runXMM
  simp only [heq]
  cases (bufferColumns descr d n.toNat).foldlM C.filter (C.reset model) <;> rfl

/-- A fold of `filter` that raises nothing leaves a state with the same reset, when each
step does. -/
theorem reset_foldlM {F H TS J E : Type} (C : SequenceModel F H TS J E)
    (h : ∀ m v m', C.filter m v = Except.ok m' → C.reset m' = C.reset m)
    (cols : List (List F)) (s s' : H) (hs : cols.foldlM C.filter s = Except.ok s') :
    C.reset s' = C.reset s := by
  induction cols generalizing s with
  | nil =>
    simp only [List.foldlM_nil, pure, Except.pure] at hs
    cases hs
    rfl
  | cons v rest ih =>
    simp only [List.foldlM_cons, bind, Except.bind] at hs
    cases hv : C.filter s v with
    | error e => rw [hv] at hs; cases hs
    | ok s1 =>
      rw [hv] at hs
      rw [ih s1 hs, h s v s1 hv]

/-- A fold of a `filter` that never raises raises nothing. -/
theorem foldlM_filter_ok {F H TS J E : Type} (C : SequenceModel F H TS J E)
    (h : ∀ s v, ∃ s', C.filter s v = Except.ok s') (cols : List (List F)) (s : H) :
    ∃ s', cols.foldlM C.filter s = Except.ok s' := by
  induction cols generalizing s with
  | nil => exact ⟨s, rfl⟩
  | cons v rest ih =>
    obtain ⟨s1, hs1⟩ := h s v
    obtain ⟨s2, hs2⟩ := ih s1
    exact ⟨s2, by simp only [List.foldlM_cons, bind, Except.bind, hs1, hs2]⟩

/-- C4: `runXMM` resets the model and applies `filter` to the columns of the buffer, from
the first to the last; there are exactly `n` of them, and the `t`-th has the `d`
components `descr[0][t], ..., descr[d-1][t]`. When a `filter` step raises, the exception
leaves `runXMM`. Otherwise `runXMM` returns, with the state after the last update, the
top-ranked label of that state as an `int`: the first byte `c` of `results.likeliest`,
which is `c` from 0 to 127 and `c - 256` from 128 on, and 0 for the empty string. -/
theorem runXMM_eq_foldl {F H TS J E : Type} [Zero F] (C : SequenceModel F H TS J E)
    (descr : Nat → Nat → F) (n : Int) (d : Nat) (model : H) :
    (∀ e, (bufferColumns descr d n.toNat).foldlM C.filter (C.reset model) = Except.error e →
      runXMM C descr n d model = Except.error e) ∧
    (∀ s, (bufferColumns descr d n.toNat).foldlM C.filter (C.reset model) = Except.ok s →
      (∀ c rest, C.likeliest s = c :: rest → c.val < 128 →
        runXMM C descr n d model = Except.ok ((c.val : Int), s)) ∧
      (∀ c rest, C.likeliest s = c :: rest → 128 ≤ c.val →
        runXMM C descr n d model = Except.ok ((c.val : Int) - 256, s)) ∧
      (C.likeliest s = [] → runXMM C descr n d model = Except.ok (0, s))) ∧
    (bufferColumns descr d n.toNat).length = n.toNat ∧
    (∀ t, t < n.toNat → ∃ v, (bufferColumns descr d n.toNat)[t]? = some v ∧ v.length = d ∧
      ∀ i, i < d → v[i]? = some (descr i t)) := by
  refine ⟨?_, ?_, by simp [bufferColumns], ?_⟩
  · intro e he
    rw [runXMM_fold, he]
    rfl
  · intro s hs
    refine ⟨?_, ?_, ?_⟩
    · intro c rest hc hlt
      rw [runXMM_fold, hs]
      simp [Except.map, hc, first0, charToInt, hlt]
    · intro c rest hc hge
      have hnot : ¬ c.val < 128 := by omega
      rw [runXMM_fold, hs]
      simp [Except.map, hc, first0, charToInt, hnot]
    · intro hnil
      rw [runXMM_fold, hs]
      simp [Except.map, hnil, first0, charToInt]
  · intro t ht
    refine ⟨(List.range d).map (fun i => descr i t), ?_, by simp, ?_⟩
    · simp [bufferColumns, List.getElem?_map, List.getElem?_range ht]
    · intro i hi
      simp [List.getElem?_map, List.getElem?_range hi]

/-- C4, at a model with the labels `'A'` and `'B'` and a buffer of 3 columns of 2
components: the three updates raise nothing and leave `"A"` as the likeliest label, and
`runXMM` returns 65, the byte of `'A'`. -/
theorem runXMM_eq_foldl_witness :
    (bufferColumns (fun i k => (i + k : Int)) 2 3
      = [[0, 1], [1, 2], [2, 3]]) ∧
    ((bufferColumns (fun i k => (i + k : Int)) 2 ((3 : Int).toNat)).foldlM (cycler Int).filter
        ((cycler Int).reset ⟨[[65], [66]], 0, []⟩)
      = Except.ok ⟨[[65], [66]], 3, [65]⟩) ∧
    ((cycler Int).likeliest ⟨[[65], [66]], 3, [65]⟩ = (65 : CChar) :: []) ∧
    runXMM (cycler Int) (fun i k => (i + k : Int)) 3 2 ⟨[[65], [66]], 0, []⟩
      = Except.ok (65, ⟨[[65], [66]], 3, [65]⟩) :=
  ⟨by decide, rfl, rfl,
   ((runXMM_eq_foldl (cycler Int) (fun i k => (i + k : Int)) 3 2 ⟨[[65], [66]], 0, []⟩).2.1
      ⟨[[65], [66]], 3, [65]⟩ rfl).1 65 [] rfl (by decide)⟩

/-- The result of `runXMM` depends on the model through its reset only. -/
theorem runXMM_congr_reset {F H TS J E : Type} [Zero F] (C : SequenceModel F H TS J E)
    (descr : Nat → Nat → F) (n : Int) (d : Nat) (m m' : H) (h : C.reset m' = C.reset m) :
    runXMM C descr n d m' = runXMM C descr n d m := by
  rw [runXMM_fold, runXMM_fold, h]

/-- A run of `runXMM` that returns leaves a model with the same reset, when the reset of
the library erases the decode state. -/
theorem reset_runXMM {F H TS J E : Type} [Zero F] (C : SequenceModel F H TS J E)
    (hC : C.ResetsDecodeState) (descr : Nat → Nat → F) (n : Int) (d : Nat) (m m' : H) (l : Int)
    (hrun : runXMM C descr n d m = Except.ok (l, m')) : C.reset m' = C.reset m := by
  rw [runXMM_fold] at hrun
  cases hf : (bufferColumns descr d n.toNat).foldlM C.filter (C.reset m) with
  | error e => rw [hf] at hrun; cases hrun
  | ok s =>
    rw [hf] at hrun
    simp only [Except.map, Except.ok.injEq, Prod.mk.injEq] at hrun
    rw [← hrun.2, reset_foldlM C hC.1 _ _ _ hf, hC.2]

/-- C5: decode determinism, for a library whose `reset` erases the decode state. A call
of `runXMM` that returned a label, repeated on the model it left with the identical
buffer, returns the identical label; and whatever earlier call left the model behind,
`runXMM` gives on it what it gives on the model before that call. -/
theorem runXMM_deterministic {F H TS J E : Type} [Zero F] (C : SequenceModel F H TS J E)
    (hC : C.ResetsDecodeState) (descr : Nat → Nat → F) (n : Int) (d : Nat) (model : H) :
    (∀ (label : Int) (model1 : H), runXMM C descr n d model = Except.ok (label, model1) →
      runXMM C descr n d model1 = Except.ok (label, model1)) ∧
    (∀ (descr0 : Nat → Nat → F) (n0 : Int) (d0 : Nat) (label0 : Int) (model0 : H),
      runXMM C descr0 n0 d0 model = Except.ok (label0, model0) →
      runXMM C descr n d model0 = runXMM C descr n d model) := by
  constructor
  · intro label model1 hrun
    rw [runXMM_congr_reset C descr n d model model1 (reset_runXMM C hC descr n d _ _ _ hrun)]
    exact hrun
  · intro descr0 n0 d0 label0 model0 hrun
    exact runXMM_congr_reset C descr n d model model0 (reset_runXMM C hC descr0 n0 d0 _ _ _ hrun)

/-- The reset of `cycler` erases its decode state. -/
theorem cycler_resets (F : Type) : (cycler F).ResetsDecodeState := by
  constructor
  · intro m v m' h
    simp only [cycler, Except.ok.injEq] at h
    subst h
    rfl
  · intro m
    rfl

/-- C5, at a trained `cycler` with the labels `'A'` and `'B'` and a buffer of 3 columns:
the second of two successive calls returns `'A'` as the first did. -/
theorem runXMM_deterministic_witness :
    (cycler Int).ResetsDecodeState ∧
    runXMM (cycler Int) (fun i k => (i + k : Int)) 3 2 ⟨[[65], [66]], 0, []⟩
      = Except.ok (65, ⟨[[65], [66]], 3, [65]⟩) ∧
    runXMM (cycler Int) (fun i k => (i + k : Int)) 3 2 ⟨[[65], [66]], 3, [65]⟩
      = Except.ok (65, ⟨[[65], [66]], 3, [65]⟩) :=
  ⟨cycler_resets Int, rfl,
   (runXMM_deterministic (cycler Int) (cycler_resets Int) (fun i k => (i + k : Int)) 3 2
      ⟨[[65], [66]], 0, []⟩).1 65 ⟨[[65], [66]], 3, [65]⟩ rfl⟩

/-- C7, as the code has it: `runXMM` does not look whether the model is trained. On a
freshly created model it returns the first byte of the likeliest label of the state it
reaches (`0` for the empty string): always when the length is at most zero, and for every
length when no `filter` step of the library raises. -/
theorem runXMM_fresh_model {F H TS J E : Type} [Zero F] (C : SequenceModel F H TS J E)
    (descr : Nat → Nat → F) (d : Nat) :
    (∀ n : Int, n ≤ 0 → runXMM C descr n d C.create
      = Except.ok (charToInt (first0 (C.likeliest (C.reset C.create))), C.reset C.create)) ∧
    ((∀ s v, ∃ s', C.filter s v = Except.ok s') →
      ∀ n : Int, ∃ s : H, runXMM C descr n d C.create
        = Except.ok (charToInt (first0 (C.likeliest s)), s)) := by
  constructor
  · intro n hn
    have h0 : n.toNat = 0 := by omega
    rw [runXMM_fold, h0]
    rfl
  · intro h n
    obtain ⟨s, hs⟩ := foldlM_filter_ok C h (bufferColumns descr d n.toNat) (C.reset C.create)
    exact ⟨s, by rw [runXMM_fold, hs]; rfl⟩

/-- C7, at the model `cycler`, whose `filter` never raises: on the fresh model a run over
3 columns returns a value. -/
theorem runXMM_fresh_model_witness :
    (∀ (s : Cycler) (v : List Int), ∃ s', (cycler Int).filter s v = Except.ok s') ∧
    ∃ s : Cycler, runXMM (cycler Int) (fun i k => (i + k : Int)) 3 2 (cycler Int).create
      = Except.ok (charToInt (first0 ((cycler Int).likeliest s)), s) :=
  ⟨fun _ _ => ⟨_, rfl⟩,
   (runXMM_fresh_model (cycler Int) (fun i k => (i + k : Int)) 2).2 (fun _ _ => ⟨_, rfl⟩) 3⟩

/-- C7 as stated fails: on a freshly created, never-trained model `runXMM` returns the
value `0`, for an empty buffer and for a buffer of 3 columns alike, and no error. -/
theorem runXMM_fresh_model_returns :
    runXMM (cycler Int) (fun i k => (i + k : Int)) 0 2 (cycler Int).create
      = Except.ok (0, ⟨[], 0, []⟩) ∧
    runXMM (cycler Int) (fun i k => (i + k : Int)) 3 2 (cycler Int).create
      = Except.ok (0, ⟨[], 3, []⟩) :=
  ⟨rfl, rfl⟩

/-! ## The claim on the handles -/

/-- C3, as the code has it: the pointer of each create function is `static`. A second
call of `initXMM` returns the handle of the first and allocates nothing; a second call of
`initDataset` returns the handle of the first as well, and the corpus behind that handle
gets the dimension and the column names of the later call. -/
theorem init_returns_the_static_instance {F H TS J E : Type} (C : SequenceModel F H TS J E)
    (p : Process H TS) (q : Process H (TrainingSet F)) (n m : Nat) :
    initXMM C (initXMM C p).2 = ((initXMM C p).1, (initXMM C p).2) ∧
    ∃ (a : Nat) (ts : TrainingSet F),
      (initDataset (xmmTrainingSet F) n q).1 = Except.ok a ∧
      (initDataset (xmmTrainingSet F) m (initDataset (xmmTrainingSet F) n q).2).1 = Except.ok a ∧
      (initDataset (xmmTrainingSet F) m (initDataset (xmmTrainingSet F) n q).2).2.initDataset_mdataset
        = some (a, ts) ∧
      ts.dimension = m ∧ ts.column_names = List.replicate m "col" := by
  constructor
  · unfold initXMM
    cases h : p.initXMM_mhhmm with
    | none => rfl
    | some x => simp [h]
  · cases h : q.initDataset_mdataset with
    | none =>
      exact ⟨q.next, ⟨m, List.replicate m "col", []⟩,
        by simp [initDataset, h, xmmTrainingSet, Step.bind],
        by simp [initDataset, h, xmmTrainingSet, Step.bind],
        by simp [initDataset, h, xmmTrainingSet, Step.bind], rfl, rfl⟩
    | some x =>
      exact ⟨x.1, ⟨m, List.replicate m "col", x.2.phrases⟩,
        by simp [initDataset, h, xmmTrainingSet, Step.bind],
        by simp [initDataset, h, xmmTrainingSet, Step.bind],
        by simp [initDataset, h, xmmTrainingSet, Step.bind], rfl, rfl⟩

/-- C3 as stated fails: from the start of the process two calls of `initXMM` return the
same handle, and so do `initDataset(2)` and `initDataset(3)`; the corpus behind that
handle has dimension 2 and two column names after the first call, dimension 3 and three
column names after the second. -/
theorem init_handles_alias :
    (initXMM (cycler Int) (Process.start Cycler (TrainingSet Int))).1 = 0 ∧
    (initXMM (cycler Int) (initXMM (cycler Int) (Process.start Cycler (TrainingSet Int))).2).1 = 0 ∧
    (initDataset (xmmTrainingSet Int) 2 (Process.start Cycler (TrainingSet Int))).1 = Except.ok 0 ∧
    (initDataset (xmmTrainingSet Int) 3
      (initDataset (xmmTrainingSet Int) 2 (Process.start Cycler (TrainingSet Int))).2).1
        = Except.ok 0 ∧
    (initDataset (xmmTrainingSet Int) 2
      (Process.start Cycler (TrainingSet Int))).2.initDataset_mdataset.map
        (fun x => (x.1, x.2.dimension, x.2.column_names)) = some (0, 2, ["col", "col"]) ∧
    (initDataset (xmmTrainingSet Int) 3
      (initDataset (xmmTrainingSet Int) 2
        (Process.start Cycler (TrainingSet Int))).2).2.initDataset_mdataset.map
        (fun x => (x.1, x.2.dimension, x.2.column_names)) = some (0, 3, ["col", "col", "col"]) :=
  ⟨rfl, rfl, rfl, rfl, rfl, rfl⟩

/-! ## The claim on failures -/

theorem Step.bind_of_none {E S : Type} (r : Step E S) (f : S → Step E S) (h : r.exn = none) :
    r.bind f = f r.state := by
  simp [Step.bind, h]

theorem Step.bind_of_some {E S : Type} (r : Step E S) (f : S → Step E S) (e : E)
    (h : r.exn = some e) : r.bind f = r := by
  simp [Step.bind, h]

theorem Step.exn_of_bind {E S : Type} (r : Step E S) (f : S → Step E S)
    (h : (r.bind f).exn = none) : r.exn = none := by
  cases hr : r.exn with
  | none => rfl
  | some e => rw [Step.bind_of_some r f e hr, hr] at h; cases h

/-- A loop is left at the first turn that raises: what that turn leaves behind is what
the loop leaves behind. -/
theorem Step.forRange_raised {E S : Type} (body : Nat → S → Step E S) (s : S) (j n : Nat) (e : E)
    (hj : j < n) (hpre : (Step.forRange j body s).exn = none)
    (hraise : (body j (Step.forRange j body s).state).exn = some e) :
    Step.forRange n body s = body j (Step.forRange j body s).state := by
  obtain ⟨k, rfl⟩ : ∃ k, n = j + 1 + k := ⟨n - (j + 1), by omega⟩
  induction k with
  | zero => rw [Nat.add_zero, Step.forRange_succ, Step.bind_of_none _ _ hpre]
  | succ k ih =>
    rw [← Nat.add_assoc, Step.forRange_succ, ih (by omega)]
    exact Step.bind_of_some _ _ e hraise

/-- The body of the loop over the samples is the construction of the phrase followed by
the loop over the time-steps. -/
theorem fillDataset.sample_eq {F TS E : Type} (T : TrainingSetOps F TS E)
    (descr : Nat → Nat → Nat → F) (sizes : Nat → Int) (labels : Nat → CChar) (j : Nat)
    (s : TS × List F) :
    fillDataset.sample T descr sizes labels j s
      = (fillDataset.construct T labels j s).bind
          (Step.forRange (sizes j).toNat (fillDataset.turn T descr j)) := rfl

/-- What `fillDataset` leaves behind is the run through all the samples. -/
theorem fillDataset_eq_before {F TS E : Type} [Zero F] (T : TrainingSetOps F TS E)
    (descr : Nat → Nat → Nat → F) (sample_num : Int) (sizes : Nat → Int) (labels : Nat → CChar)
    (dataset : TS) :
    fillDataset T descr sample_num sizes labels dataset
      = ⟨89, (fillDataset.before T descr sizes labels dataset sample_num.toNat).state.1,
          (fillDataset.before T descr sizes labels dataset sample_num.toNat).exn⟩ := rfl

/-- When the turn for sample `j` raises, after a run that raised nothing before it, the
run through all `n` samples ends with what that turn leaves behind. -/
theorem fillDataset.before_raised {F TS E : Type} [Zero F] (T : TrainingSetOps F TS E)
    (descr : Nat → Nat → Nat → F) (sizes : Nat → Int) (labels : Nat → CChar) (dataset : TS)
    (j n : Nat) (e : E) (hj : j < n)
    (hpre : (fillDataset.before T descr sizes labels dataset j).exn = none)
    (hraise : (fillDataset.sample T descr sizes labels j
      (fillDataset.before T descr sizes labels dataset j).state).exn = some e) :
    fillDataset.before T descr sizes labels dataset n
      = fillDataset.sample T descr sizes labels j
          (fillDataset.before T descr sizes labels dataset j).state := by
  have hempty := Step.exn_of_bind _ _ hpre
  unfold fillDataset.before at hpre hraise ⊢
  have hj' := Step.bind_of_none _ (Step.forRange j (fillDataset.sample T descr sizes labels)) hempty
  rw [hj'] at hpre hraise
  rw [hj', Step.bind_of_none _ _ hempty]
  exact Step.forRange_raised _ _ j n e hj hpre hraise

/-- When `addPhrase` raises for sample `j`, the turn for `j` ends with what `addPhrase`
leaves behind. -/
theorem fillDataset.sample_addPhrase_raised {F TS E : Type} (T : TrainingSetOps F TS E)
    (descr : Nat → Nat → Nat → F) (sizes : Nat → Int) (labels : Nat → CChar) (j : Nat)
    (s : TS × List F) (e : E) (h : (T.addPhrase j (toString (labels j)) s.1).exn = some e) :
    fillDataset.sample T descr sizes labels j s
      = ⟨((T.addPhrase j (toString (labels j)) s.1).state, s.2), some e⟩ := by
  have hA : (onDataset (T.addPhrase j (toString (labels j))) s).exn = some e := h
  unfold fillDataset.sample
  rw [Step.bind_of_some _ _ e hA, Step.bind_of_some _ _ e hA, Step.bind_of_some _ _ e hA,
    Step.bind_of_some _ _ e hA]
  simp only [onDataset, h]

/-- One turn of the loop over the time-steps is the call of `record` on the filled
vector: filling the vector raises nothing. -/
theorem fillDataset.turn_eq {F TS E : Type} (T : TrainingSetOps F TS E)
    (descr : Nat → Nat → Nat → F) (j it : Nat) (s : TS × List F) :
    fillDataset.turn T descr j it s
      = onDataset (T.phrase_record j (fillDataset.observe T descr j it s).state.2)
          (fillDataset.observe T descr j it s).state := rfl

/-- When `record` raises for time-step `it` of sample `j`, after a construction of the
phrase and turns for the time-steps before `it` that raised nothing, the turn for `j`
ends with what `record` leaves behind. -/
theorem fillDataset.sample_record_raised {F TS E : Type} (T : TrainingSetOps F TS E)
    (descr : Nat → Nat → Nat → F) (sizes : Nat → Int) (labels : Nat → CChar) (j it : Nat)
    (s : TS × List F) (e : E) (hit : it < (sizes j).toNat)
    (hpre : (((fillDataset.construct T labels j s).bind
      (Step.forRange it (fillDataset.turn T descr j))).bind
      (fillDataset.observe T descr j it)).exn = none)
    (hrec : (T.phrase_record j
      (((fillDataset.construct T labels j s).bind
        (Step.forRange it (fillDataset.turn T descr j))).bind
        (fillDataset.observe T descr j it)).state.2
      (((fillDataset.construct T labels j s).bind
        (Step.forRange it (fillDataset.turn T descr j))).bind
        (fillDataset.observe T descr j it)).state.1).exn = some e) :
    fillDataset.sample T descr sizes labels j s
      = ⟨((T.phrase_record j
          (((fillDataset.construct T labels j s).bind
            (Step.forRange it (fillDataset.turn T descr j))).bind
            (fillDataset.observe T descr j it)).state.2
          (((fillDataset.construct T labels j s).bind
            (Step.forRange it (fillDataset.turn T descr j))).bind
            (fillDataset.observe T descr j it)).state.1).state,
          (((fillDataset.construct T labels j s).bind
            (Step.forRange it (fillDataset.turn T descr j))).bind
            (fillDataset.observe T descr j it)).state.2), some e⟩ := by
  have hloop := Step.exn_of_bind _ _ hpre
  have hcons := Step.exn_of_bind _ _ hloop
  have e1 := Step.bind_of_none _ (fillDataset.observe T descr j it) hloop
  have e2 := Step.bind_of_none _ (Step.forRange it (fillDataset.turn T descr j)) hcons
  rw [e1] at hrec ⊢
  rw [e2] at hloop hrec ⊢
  have hturn : fillDataset.turn T descr j it
      (Step.forRange it (fillDataset.turn T descr j) (fillDataset.construct T labels j s).state).state
      = ⟨((T.phrase_record j
          (fillDataset.observe T descr j it (Step.forRange it (fillDataset.turn T descr j)
            (fillDataset.construct T labels j s).state).state).state.2
          (fillDataset.observe T descr j it (Step.forRange it (fillDataset.turn T descr j)
            (fillDataset.construct T labels j s).state).state).state.1).state,
          (fillDataset.observe T descr j it (Step.forRange it (fillDataset.turn T descr j)
            (fillDataset.construct T labels j s).state).state).state.2), some e⟩ := by
    rw [fillDataset.turn_eq]
    simp only [onDataset, hrec]
  rw [fillDataset.sample_eq, Step.bind_of_none _ _ hcons,
    Step.forRange_raised _ _ it _ e hit hloop (by rw [hturn]), hturn]

/-- C6, as the code has it: `fillDataset` and `trainXMM` return `int('Y')`, that is 89, on
every path. In `fillDataset` an exception of `empty()`, of the `addPhrase` for a sample
`j`, of the `record` for a time-step `it` of a sample `j`, or of any call of the turn for
a sample `j` is caught, no later call is made, and the corpus stays as the failed call
left it; when nothing raises, nothing is caught. `trainXMM` catches the exception that
`train` raised and keeps the model as `train` left it. -/
theorem failure_returns_Y {F H TS J E : Type} [Zero F] (T : TrainingSetOps F TS E)
    (C : SequenceModel F H TS J E) (descr : Nat → Nat → Nat → F) (sample_num : Int)
    (sizes : Nat → Int) (labels : Nat → CChar) (dataset : TS) (model : H) :
    (fillDataset T descr sample_num sizes labels dataset).ret = 89 ∧
    (∀ e, (T.empty dataset).exn = some e →
      (fillDataset T descr sample_num sizes labels dataset).caught = some e ∧
      (fillDataset T descr sample_num sizes labels dataset).dataset = (T.empty dataset).state) ∧
    (∀ (j : Nat) (e : E), j < sample_num.toNat →
      (fillDataset.before T descr sizes labels dataset j).exn = none →
      (T.addPhrase j (toString (labels j))
        (fillDataset.before T descr sizes labels dataset j).state.1).exn = some e →
      (fillDataset T descr sample_num sizes labels dataset).caught = some e ∧
      (fillDataset T descr sample_num sizes labels dataset).dataset
        = (T.addPhrase j (toString (labels j))
            (fillDataset.before T descr sizes labels dataset j).state.1).state) ∧
    (∀ (j it : Nat) (e : E), j < sample_num.toNat → it < (sizes j).toNat →
      (fillDataset.beforeRecord T descr sizes labels dataset j it).exn = none →
      (T.phrase_record j (fillDataset.beforeRecord T descr sizes labels dataset j it).state.2
        (fillDataset.beforeRecord T descr sizes labels dataset j it).state.1).exn = some e →
      (fillDataset T descr sample_num sizes labels dataset).caught = some e ∧
      (fillDataset T descr sample_num sizes labels dataset).dataset
        = (T.phrase_record j (fillDataset.beforeRecord T descr sizes labels dataset j it).state.2
            (fillDataset.beforeRecord T descr sizes labels dataset j it).state.1).state) ∧
    (∀ (j : Nat) (e : E), j < sample_num.toNat →
      (fillDataset.before T descr sizes labels dataset j).exn = none →
      (fillDataset.sample T descr sizes labels j
        (fillDataset.before T descr sizes labels dataset j).state).exn = some e →
      (fillDataset T descr sample_num sizes labels dataset).caught = some e ∧
      (fillDataset T descr sample_num sizes labels dataset).dataset
        = (fillDataset.sample T descr sizes labels j
            (fillDataset.before T descr sizes labels dataset j).state).state.1) ∧
    ((fillDataset.before T descr sizes labels dataset sample_num.toNat).exn = none →
      (fillDataset T descr sample_num sizes labels dataset).caught = none ∧
      (fillDataset T descr sample_num sizes labels dataset).dataset
        = (fillDataset.before T descr sizes labels dataset sample_num.toNat).state.1) ∧
    (trainXMM C dataset model).ret = 89 ∧
    (trainXMM C dataset model).caught = (C.train model dataset).exn ∧
    (trainXMM C dataset model).model = (C.train model dataset).state := by
  refine ⟨rfl, ?_, ?_, ?_, ?_, ?_, rfl, rfl, rfl⟩
  · intro e he
    simp [fillDataset, onDataset, Step.bind, he]
  · intro j e hj hpre hadd
    have hs := fillDataset.sample_addPhrase_raised T descr sizes labels j _ e hadd
    have hb := fillDataset.before_raised T descr sizes labels dataset j sample_num.toNat e hj hpre
      (by rw [hs])
    rw [fillDataset_eq_before, hb, hs]
    exact ⟨rfl, rfl⟩
  · intro j it e hj hit hpre hrec
    have h3 := Step.exn_of_bind _ _ hpre
    have h2 := Step.exn_of_bind _ _ h3
    have h1 := Step.exn_of_bind _ _ h2
    have hB := Step.bind_of_none _ (fillDataset.construct T labels j) h1
    unfold fillDataset.beforeRecord at hpre hrec ⊢
    rw [hB] at hpre hrec ⊢
    have hs := fillDataset.sample_record_raised T descr sizes labels j it _ e hit hpre hrec
    have hb := fillDataset.before_raised T descr sizes labels dataset j sample_num.toNat e hj h1
      (by rw [hs])
    rw [fillDataset_eq_before, hb, hs]
    exact ⟨rfl, rfl⟩
  · intro j e hj hpre hraise
    have hb := fillDataset.before_raised T descr sizes labels dataset j sample_num.toNat e hj hpre
      hraise
    rw [fillDataset_eq_before, hb]
    exact ⟨hraise, rfl⟩
  · intro h
    rw [fillDataset_eq_before]
    exact ⟨h, rfl⟩

/-- C6, at a library with memory for two vectors a phrase, on the corpus and the buffers
of the scenario: the `record` for the third time-step of sample 0 raises, after a run that
raised nothing; `fillDataset` catches the exception and leaves the corpus as that call
left it, with the two vectors recorded before. -/
theorem failure_returns_Y_witness :
    (0 < (2 : Int).toNat ∧ 2 < (scenarioSizes 0).toNat) ∧
    (fillDataset.beforeRecord (limitedTrainingSet Int 10 2) scenarioDescr scenarioSizes
      scenarioLabels scenarioCorpus 0 2).exn = none ∧
    ((limitedTrainingSet Int 10 2).phrase_record ((0 : Nat) : Int)
      (fillDataset.beforeRecord (limitedTrainingSet Int 10 2) scenarioDescr scenarioSizes
        scenarioLabels scenarioCorpus 0 2).state.2
      (fillDataset.beforeRecord (limitedTrainingSet Int 10 2) scenarioDescr scenarioSizes
        scenarioLabels scenarioCorpus 0 2).state.1).exn = some XmmError.badAlloc ∧
    ((fillDataset (limitedTrainingSet Int 10 2) scenarioDescr 2 scenarioSizes scenarioLabels
        scenarioCorpus).caught = some XmmError.badAlloc ∧
      (fillDataset (limitedTrainingSet Int 10 2) scenarioDescr 2 scenarioSizes scenarioLabels
        scenarioCorpus).dataset
      = ((limitedTrainingSet Int 10 2).phrase_record ((0 : Nat) : Int)
          (fillDataset.beforeRecord (limitedTrainingSet Int 10 2) scenarioDescr scenarioSizes
            scenarioLabels scenarioCorpus 0 2).state.2
          (fillDataset.beforeRecord (limitedTrainingSet Int 10 2) scenarioDescr scenarioSizes
            scenarioLabels scenarioCorpus 0 2).state.1).state) ∧
    (fillDataset (limitedTrainingSet Int 10 2) scenarioDescr 2 scenarioSizes scenarioLabels
        scenarioCorpus).dataset.phrases.map (fun x => (x.1, x.2.data))
      = [(0, [[1, 2], [1, 2]])] :=
  ⟨⟨by decide, by decide⟩, rfl, rfl,
   (failure_returns_Y (limitedTrainingSet Int 10 2) (cycler Int) scenarioDescr 2 scenarioSizes
      scenarioLabels scenarioCorpus (cycler Int).create).2.2.2.1 0 2 XmmError.badAlloc
      (by decide) (by decide) rfl rfl,
   by decide⟩

/-- C6 as stated fails: `trainXMM` on an empty corpus, where `train` raises, returns 89 as
it does on a corpus with phrases, where `train` succeeds; and on the corpus and the
buffers of the scenario `fillDataset` returns 89 when the `addPhrase` for sample 1 raises
(memory for one phrase), when the `record` for the third vector of sample 0 raises (memory
for two vectors a phrase), and when nothing raises. -/
theorem failure_returned_as_success :
    (trainXMM (cycler Int) scenarioCorpus (cycler Int).create).caught = some XmmError.fitError ∧
    (trainXMM (cycler Int) scenarioCorpus (cycler Int).create).ret = 89 ∧
    (trainXMM (cycler Int)
      (fillDataset (xmmTrainingSet Int) scenarioDescr 2 scenarioSizes scenarioLabels
        scenarioCorpus).dataset (cycler Int).create).caught = none ∧
    (trainXMM (cycler Int)
      (fillDataset (xmmTrainingSet Int) scenarioDescr 2 scenarioSizes scenarioLabels
        scenarioCorpus).dataset (cycler Int).create).ret = 89 ∧
    (fillDataset (limitedTrainingSet Int 1 10) scenarioDescr 2 scenarioSizes scenarioLabels
      scenarioCorpus).caught = some XmmError.badAlloc ∧
    (fillDataset (limitedTrainingSet Int 1 10) scenarioDescr 2 scenarioSizes scenarioLabels
      scenarioCorpus).ret = 89 ∧
    (fillDataset (limitedTrainingSet Int 10 2) scenarioDescr 2 scenarioSizes scenarioLabels
      scenarioCorpus).caught = some XmmError.badAlloc ∧
    (fillDataset (limitedTrainingSet Int 10 2) scenarioDescr 2 scenarioSizes scenarioLabels
      scenarioCorpus).ret = 89 ∧
    (fillDataset (xmmTrainingSet Int) scenarioDescr 2 scenarioSizes scenarioLabels
      scenarioCorpus).caught = none ∧
    (fillDataset (xmmTrainingSet Int) scenarioDescr 2 scenarioSizes scenarioLabels
      scenarioCorpus).ret = 89 :=
  ⟨rfl, rfl, rfl, rfl, rfl, rfl, rfl, rfl, rfl, rfl⟩

/-! ## The stores of importJson -/

theorem take_succ_set {α : Type} (b : List α) (i : Nat) (x : α) (h : i < b.length) :
    (b.set i x).take (i + 1) = b.take i ++ [x] := by
  rw [List.take_succ, List.getElem?_set_self h]
  congr 1
  apply List.ext_getElem?
  intro k
  rw [List.getElem?_take, List.getElem?_take]
  split
  · next hk => rw [List.getElem?_set_ne (by omega)]
  · rfl

/-- Lines 129-132: from position `i` on, the loop stores the first bytes of the labels
when they fit the block, and a store falls outside of it when they do not. -/
theorem importJson_loop (labels : List CString) (b : LabelBuffer) (i : Nat) :
    labels.foldlM importJson.step (b, i)
      = if i + labels.length ≤ b.length
        then some (b.take i ++ labels.map (fun l => some (first0 l)) ++ b.drop (i + labels.length),
                   i + labels.length)
        else if labels = [] then some (b, i) else none := by
  induction labels generalizing b i with
  | nil =>
    by_cases h : i ≤ b.length <;> simp [h]
  | cons l rest ih =>
    simp only [List.foldlM_cons, importJson.step, LabelBuffer.store, List.length_cons,
      List.map_cons]
    by_cases hlt : i < b.length
    · have hlen : (b.set i (some (first0 l))).length = b.length := by simp
      simp only [hlt, if_true, Option.map_some', Option.bind_eq_bind, Option.some_bind]
      rw [ih, hlen]
      have e1 : i + 1 + rest.length = i + (rest.length + 1) := by omega
      rw [e1]
      by_cases hfit : i + (rest.length + 1) ≤ b.length
      · simp only [hfit, if_true, Option.some.injEq, Prod.mk.injEq, and_true]
        rw [take_succ_set b i _ hlt, List.drop_set_of_lt _ b (by omega)]
        simp
      · have hrest : rest ≠ [] := by
          intro h
          subst h
          simp only [List.length_nil] at hfit
          omega
        simp [hfit, hrest]
    · have hfit : ¬ i + (rest.length + 1) ≤ b.length := by omega
      simp [hlt, hfit]

/-- Lines 125-138 when `fromJson` raises nothing: with a block of at least one byte more
than the restored model has sub-models, `importJson` leaves the first bytes of the labels,
in the order of `models`, then the byte `'0'`, then the rest of the block as it was; with
a smaller block a store falls outside of it. -/
theorem importJson_stores {F H TS J E : Type} (C : SequenceModel F H TS J E) (json : J)
    (model : H) (static : Option LabelBuffer) (h : (C.fromJson model json).exn = none) :
    importJson C json model static
      = if (C.models (C.fromJson model json).state).length + 1
            ≤ (static.getD (List.replicate ((C.models model).length + 1) none)).length
        then some
          { model := (C.fromJson model json).state
            labls := (C.models (C.fromJson model json).state).map (fun l => some (first0 l))
              ++ [some (charLit '0')]
              ++ (static.getD (List.replicate ((C.models model).length + 1) none)).drop
                  ((C.models (C.fromJson model json).state).length + 1)
            caught := none }
        else none := by
  have hb : (match static with
      | some b => b
      | none => List.replicate ((C.models model).length + 1) none)
      = static.getD (List.replicate ((C.models model).length + 1) none) := by
    cases static <;> rfl
  unfold importJson
  simp only [hb, h]
  generalize static.getD (List.replicate ((C.models model).length + 1) none) = b
  generalize C.models (C.fromJson model json).state = labels
  rw [importJson_loop]
  simp only [Nat.zero_add, List.take_zero, List.nil_append]
  by_cases hfit : labels.length + 1 ≤ b.length
  · have h0 : labels.length ≤ b.length := by omega
    have hlt : labels.length < (List.map (fun l => some (first0 l)) labels
        ++ List.drop labels.length b).length := by
      simp only [List.length_append, List.length_map, List.length_drop]; omega
    simp only [h0, hfit, if_true, LabelBuffer.store, hlt, Option.map_some']
    congr 2
    rw [List.set_append]
    simp only [List.length_map, lt_self_iff_false, if_false, Nat.sub_self]
    rw [List.drop_eq_getElem_cons (by omega : labels.length < b.length), List.set_cons_zero]
    simp
  · by_cases h0 : labels.length ≤ b.length
    · have hnot : ¬ labels.length < (List.map (fun l => some (first0 l)) labels
          ++ List.drop labels.length b).length := by
        simp only [List.length_append, List.length_map, List.length_drop]; omega
      simp only [h0, hfit, if_true, if_false, LabelBuffer.store, hnot, Option.map_none']
    · have hne : labels ≠ [] := by
        intro hl
        subst hl
        simp at h0
      simp [h0, hfit, hne]

/-! ## The claims on importJson -/

/-- C8, at the failing input: a model with two sub-models, into which a document with the
labels `'A'` and `'B'` is loaded on the first call. The block holds `'A'`, `'B'` and then
the digit `'0'`, the byte 48, where the claim has the terminator byte 0. -/
theorem importJson_terminator :
    (importJson (cycler Int) (some [[65], [66]]) ⟨[[67], [68]], 0, []⟩ none).map
        (fun r => (r.labls, r.caught))
      = some ([some 65, some 66, some 48], none) ∧
    charLit '0' = 48 := by
  constructor <;> rfl

/-- C10, at the failing input: on the first call, with a freshly created model (no
sub-model, so a block of one byte) and a document with the labels `'A'` and `'B'`, a store
falls outside the block; and so does one on a second call, with the block of two bytes
that a first call allocated and the same document. -/
theorem importJson_out_of_bounds :
    (importJson (cycler Int) (some [[65], [66]]) (cycler Int).create none).isNone = true ∧
    (importJson (cycler Int) (some [[66]]) ⟨[[65]], 0, []⟩ none).map (fun r => r.labls)
      = some [some 66, some 48] ∧
    (importJson (cycler Int) (some [[65], [66]]) ⟨[[66]], 0, []⟩
      (some [some 66, some 48])).isNone = true :=
  ⟨rfl, rfl, rfl⟩

end XmmLib
